import Mathlib

/-!
Verification development for the conduit multi-instance process supervisor
and telemetry aggregator (cli/internal/conduit/multi.go, current revision;
the older revision of the same file is embedded separately where a claim
compares the two).

Modelling conventions:
- Go strings are embedded as List Char (all relevant protocol text is ASCII).
- Go int / int64 are embedded as Int; overflow is immaterial at the
  magnitudes these counters can reach, except for strconv.Atoi whose
  overflow error is modelled explicitly.
- strconv.ParseFloat followed by float64 multiplication by a power of 1024
  and int64() conversion is embedded bit-faithfully: the token's exact
  decimal value is rounded to the nearest float64 (ties to even, with
  overflow to infinity reported as ParseFloat's range error, on which the
  Go code returns 0); the multiplication by a power-of-two multiplier is
  exact in float64 below the overflow threshold; the int64() conversion
  truncates in-range values toward zero, and for out-of-range or infinite
  values — implementation-dependent per the Go spec — the model uses the
  minimum int64, which is what gc on amd64 produces.
- time.Time is embedded as Int nanoseconds, with Option used for the
  IsZero distinction; time.Duration as Int nanoseconds.
- Goroutine interleavings are embedded as explicit event traces: each
  supervisor loop consumes a list of per-attempt outcomes, and the
  aggregator consumes a list of signal/cancellation events each carrying
  the shared state observed at that moment.
-/

namespace Conduit

/-! ## Constants (multi.go, const block) -/

/-- ClientsPerInstance is the target number of clients per instance. -/
def ClientsPerInstance : Int := 50

/-- MaxInstances is the maximum number of instances allowed. -/
def MaxInstances : Int := 32

/-- BytesPerSecondToMbps converts bytes per second to megabits per second.
Go evaluates the untyped constant expression 1000 * 1000 / 8 with exact
integer arithmetic. -/
def BytesPerSecondToMbps : Int := 1000 * 1000 / 8

/-- MaxRestarts is the maximum number of times an instance can restart. -/
def MaxRestarts : Int := 5

/-- IdleTimeout (1 hour) in nanoseconds, Go time.Duration units. -/
def IdleTimeoutNs : Int := 3600 * 1000000000

/-! ## Character classes used by the package-level regexes.
Go regexp (RE2) defines the Perl class backslash-s as [\t\n\f\r ] and
backslash-d as [0-9]. -/

/-- Whitespace per RE2's Perl class. -/
def isWS (c : Char) : Bool :=
  c = ' ' || c = '\t' || c = '\n' || c = '\x0c' || c = '\x0d'

/-- Decimal digit. -/
def isDigit (c : Char) : Bool := '0' ≤ c && c ≤ '9'

/-- Character of the class [0-9.] used by the Up/Down number captures. -/
def isNumCh (c : Char) : Bool := isDigit c || c = '.'

/-- Numeric value of a digit string. -/
def digitsToNat (cs : List Char) : Nat :=
  cs.foldl (fun n c => 10 * n + (c.toNat - 48)) 0

/-- Model of strconv.ParseFloat restricted to the token grammar the stats
regexes can produce (strings over [0-9.]): an optional integer part and an
optional fractional part around at most one dot, with at least one digit.
The value is returned exactly, as a mantissa m and a scale f denoting
m / 10^f. Tokens outside this grammar (strconv also accepts signs,
exponents, inf) are mapped to a parse failure, as are malformed tokens
such as a bare dot or a token with two dots. -/
def parseFloatDec (cs : List Char) : Option (Nat × Nat) :=
  let ip := cs.takeWhile isDigit
  let rest := cs.drop ip.length
  match rest with
  | [] => if ip.isEmpty then none else some (digitsToNat ip, 0)
  | c :: fp =>
    if c = '.' ∧ fp.all isDigit ∧ (ip.isEmpty → fp.isEmpty = false) then
      some (digitsToNat ip * 10 ^ fp.length + digitsToNat fp, fp.length)
    else none

/-- Rational value denoted by a parsed mantissa/scale pair. -/
def valQ (p : Nat × Nat) : ℚ := (p.1 : ℚ) / 10 ^ p.2

/-- Go conversion int64(f) of a float64: truncation toward zero. -/
def truncQ (q : ℚ) : Int :=
  if q < 0 then -⌊-q⌋ else ⌊q⌋

/-- byteMultipliers map from multi.go, as a lookup function. -/
def byteMultiplier (u : List Char) : Option Nat :=
  if u = ['B'] then some 1
  else if u = ['K', 'B'] then some 1024
  else if u = ['M', 'B'] then some (1024 * 1024)
  else if u = ['G', 'B'] then some (1024 * 1024 * 1024)
  else if u = ['T', 'B'] then some (1024 * 1024 * 1024 * 1024)
  else if u = ['P', 'B'] then some (1024 * 1024 * 1024 * 1024 * 1024)
  else if u = ['E', 'B'] then some (1024 * 1024 * 1024 * 1024 * 1024 * 1024)
  else none

/-- The minimum value of a 64-bit int: what gc on amd64 produces for an
int64 conversion of an infinite or out-of-range float64 (the Go spec
leaves those conversions implementation-dependent). -/
def minInt64 : Int := -9223372036854775808

/-- Round a/b (b positive) to the nearest integer, ties to even. -/
def roundNearestEven (a b : Nat) : Nat :=
  let q := a / b
  let r := a % b
  if 2 * r < b then q
  else if b < 2 * r then q + 1
  else if q % 2 = 0 then q else q + 1

/-- Halving recursion for the binary logarithm, fuelled so that it is
structural; fuel n is enough for every n since log2 n does not exceed n. -/
def log2Aux : Nat → Nat → Nat
  | 0, _ => 0
  | fuel + 1, n => if n ≤ 1 then 0 else log2Aux fuel (n / 2) + 1

/-- Floor of the binary logarithm of a positive natural. -/
def floorLog2 (n : Nat) : Nat := log2Aux n n

/-- Powers of two by structural recursion (equal to 2 ^ n; written this
way so that closed instances reduce step by step). -/
def twoPow : Nat → Nat
  | 0 => 1
  | n + 1 => 2 * twoPow n

/-- Correct rounding of the exact decimal value m/10^f to a float64
(round to nearest, ties to even), as strconv.ParseFloat performs it. The
result (n, g) denotes the value n * 2^g on the float64 grid: g is the
exponent of the unit in the last place, at least -1074 (the subnormal
grid). none means the value rounds to infinity, on which ParseFloat
reports a range error. Values below half the smallest subnormal round to
zero, which ParseFloat returns without an error. The scale 2^1200 makes
the floor of the base-two logarithm computable on naturals for every
value down to the underflow-to-zero range. -/
def roundFloat64Dec (m f : Nat) : Option (Nat × Int) :=
  if m = 0 then some (0, 0)
  else if m * twoPow 1200 < 10 ^ f then some (0, 0)
  else
    let e : Int := (floorLog2 (m * twoPow 1200 / 10 ^ f) : Int) - 1200
    let g : Int := max (e - 52) (-1074)
    let n : Nat :=
      if 0 ≤ g then roundNearestEven m (10 ^ f * twoPow g.toNat)
      else roundNearestEven (m * twoPow (-g).toNat) (10 ^ f)
    if 0 ≤ g ∧ twoPow 1024 ≤ n * twoPow g.toNat then none
    else some (n, g)

/-- strconv.ParseFloat on a token: syntax errors and range errors are
both err cases, mapped to none; otherwise the nearest float64 as a grid
pair. -/
def parseFloat64 (cs : List Char) : Option (Nat × Int) :=
  match parseFloatDec cs with
  | none => none
  | some (m, f) => roundFloat64Dec m f

/-- The exact rational value of a finite float64 grid pair. -/
def f64Q (nf : Nat × Int) : ℚ :=
  if 0 ≤ nf.2 then ((nf.1 * 2 ^ nf.2.toNat : ℕ) : ℚ)
  else (nf.1 : ℚ) / ((2 ^ (-nf.2).toNat : ℕ) : ℚ)

/-- float64 multiplication of the parsed value by a power-of-two
multiplier followed by Go's int64() conversion. The product of a float64
and a power of two is exact below the overflow threshold (the significand
is unchanged), so the multiply either yields the exact product or
overflows to infinity; the conversion truncates toward zero when the
truncation is representable, and otherwise — including the infinite case,
where 2^1024 ≤ value also forces 2^63 ≤ value — gives minInt64 (gc on
amd64; implementation-dependent per the Go spec). -/
def f64MulToInt64 (nf : Nat × Int) (mult : Nat) : Int :=
  let a := nf.1 * mult
  if 0 ≤ nf.2 then
    if 2 ^ 63 ≤ a * 2 ^ nf.2.toNat then minInt64
    else ((a * 2 ^ nf.2.toNat : ℕ) : Int)
  else
    if 2 ^ 63 ≤ a / 2 ^ (-nf.2).toNat then minInt64
    else ((a / 2 ^ (-nf.2).toNat : ℕ) : Int)

/-- parseByteValue converts a human-readable byte string to int64
(multi.go): parse the number with strconv.ParseFloat — a syntax or range
error yields 0 — then multiply by the unit's float64 multiplier when the
unit is known (otherwise use the bare number) and convert to int64. -/
def parseByteValue (numStr u : List Char) : Int :=
  match parseFloat64 numStr with
  | none => 0
  | some nf =>
    match byteMultiplier u with
    | some mult => f64MulToInt64 nf mult
    | none => f64MulToInt64 nf 1

/-- The enumerated unit set, in multiplier order: index k carries 1024^k. -/
def byteUnits : List (List Char) :=
  [['B'], ['K', 'B'], ['M', 'B'], ['G', 'B'], ['T', 'B'], ['P', 'B'], ['E', 'B']]

/-! ## InstanceStats and the stdout scraper (multi.go).

The package-level regexes are embedded as direct scanners. Each pattern
begins with a literal label, so every match of the whole pattern starts at
an occurrence of that label; RE2's leftmost-first rule then reduces to
scanning the occurrences of the label from the left and, at each, running
the rest of the pattern. The character classes of adjacent pieces
(whitespace, [0-9], [0-9.], the unit letters and B) are pairwise disjoint,
so greedy matching never needs to give characters back and the maximal
munch the scanners implement is exactly RE2's preferred match. -/

/-- InstanceStats tracks stats for a single instance (multi.go).
LastZeroTime is none for the Go zero time.Time (IsZero). -/
structure InstanceStats where
  ID : String
  IsLive : Bool
  Connecting : Int
  Connected : Int
  BytesUp : Int
  BytesDown : Int
  RestartCount : Int
  LastZeroTime : Option Int
deriving DecidableEq, Repr

/-- Fresh record as built by NewMultiService for instance index i. -/
def newInstanceStats (id : String) : InstanceStats :=
  ⟨id, false, 0, 0, 0, 0, 0, none⟩

/-- Scanner for a regex of shape: literal label, then optional whitespace,
then a captured nonempty digit run. Returns the leftmost capture. -/
def findLabeledDigits (label : List Char) : List Char → Option (List Char)
  | [] => none
  | c :: rest =>
    if label.isPrefixOf (c :: rest) then
      match (((c :: rest).drop label.length).dropWhile isWS).takeWhile isDigit with
      | [] => findLabeledDigits label rest
      | d :: ds => some (d :: ds)
    else findLabeledDigits label rest

/-- strconv.Atoi on a digit capture: the decimal value, unless it
overflows a 64-bit int, in which case Atoi reports an error. -/
def atoiInt (cs : List Char) : Option Int :=
  if cs.isEmpty then none
  else if digitsToNat cs ≤ 9223372036854775807 then some (digitsToNat cs)
  else none

/-- FindStringSubmatch of a labeled-int regex followed by Atoi. -/
def findLabeledInt (label line : List Char) : Option Int :=
  (findLabeledDigits label line).bind atoiInt

/-- The unit capture [KMGTPE]?B at a given position: a two-letter unit is
preferred; otherwise a bare B. -/
def matchUnit : List Char → Option (List Char)
  | c1 :: c2 :: _ =>
    if (c1 = 'K' || c1 = 'M' || c1 = 'G' || c1 = 'T' || c1 = 'P' || c1 = 'E') && c2 = 'B' then
      some [c1, 'B']
    else if c1 = 'B' then some ['B'] else none
  | [c1] => if c1 = 'B' then some ['B'] else none
  | [] => none

/-- Scanner for the Up/Down regexes: literal label, optional whitespace, a
captured nonempty [0-9.] run, optional whitespace, a captured unit.
Returns the leftmost (number, unit) capture pair. -/
def findByte (label : List Char) : List Char → Option (List Char × List Char)
  | [] => none
  | c :: rest =>
    if label.isPrefixOf (c :: rest) then
      let t := ((c :: rest).drop label.length).dropWhile isWS
      let num := t.takeWhile isNumCh
      if num.isEmpty then findByte label rest
      else
        match matchUnit ((t.drop num.length).dropWhile isWS) with
        | some uu => some (num, uu)
        | none => findByte label rest
    else findByte label rest

/-- Label of connectingRe. -/
def connectingLabel : List Char := "Connecting:".toList

/-- Label of connectedRe. -/
def connectedLabel : List Char := "Connected:".toList

/-- Label of upRe. -/
def upLabel : List Char := "Up:".toList

/-- Label of downRe. -/
def downLabel : List Char := "Down:".toList

/-- Value the Connecting field would be set to by a line, if any. -/
def connectingValOf (line : List Char) : Option Int :=
  findLabeledInt connectingLabel line

/-- Value the Connected field would be set to by a line, if any. -/
def connectedValOf (line : List Char) : Option Int :=
  findLabeledInt connectedLabel line

/-- Value the BytesUp field would be set to by a line, if any. -/
def upValOf (line : List Char) : Option Int :=
  (findByte upLabel line).map fun nu => parseByteValue nu.1 nu.2

/-- Value the BytesDown field would be set to by a line, if any. -/
def downValOf (line : List Char) : Option Int :=
  (findByte downLabel line).map fun nu => parseByteValue nu.1 nu.2

/-- Connecting step of parseStatsLine. -/
def updConnecting (line : List Char) (p : InstanceStats × Bool) : InstanceStats × Bool :=
  match connectingValOf line with
  | some v => if p.1.Connecting ≠ v then ({p.1 with Connecting := v}, true) else p
  | none => p

/-- Connected step of parseStatsLine. -/
def updConnected (line : List Char) (p : InstanceStats × Bool) : InstanceStats × Bool :=
  match connectedValOf line with
  | some v => if p.1.Connected ≠ v then ({p.1 with Connected := v}, true) else p
  | none => p

/-- BytesUp step of parseStatsLine. -/
def updUp (line : List Char) (p : InstanceStats × Bool) : InstanceStats × Bool :=
  match upValOf line with
  | some v => if p.1.BytesUp ≠ v then ({p.1 with BytesUp := v}, true) else p
  | none => p

/-- BytesDown step of parseStatsLine. -/
def updDown (line : List Char) (p : InstanceStats × Bool) : InstanceStats × Bool :=
  match downValOf line with
  | some v => if p.1.BytesDown ≠ v then ({p.1 with BytesDown := v}, true) else p
  | none => p

/-- parseStatsLine (multi.go): apply the four optional field patterns in
order, each setting its field when the parsed value differs and raising
the changed flag; the returned Bool reports whether any field changed. -/
def parseStatsLine (stats : InstanceStats) (line : List Char) : InstanceStats × Bool :=
  updDown line (updUp line (updConnected line (updConnecting line (stats, false))))

/-- Console messages emitted while processing one line of one instance. -/
inductive ConsoleMsg where
  | banner (idx : Nat)
  | echo (idx : Nat) (line : List Char)
deriving DecidableEq, Repr

/-- Liveness marker substring. -/
def okMarker : List Char := "[OK] Connected to Psiphon network".toList

/-- Stats marker substring. -/
def statsMarker : List Char := "[STATS]".toList

/-- strings.Contains. -/
def containsSub (needle : List Char) : List Char → Bool
  | [] => needle.isEmpty
  | c :: rest => needle.isPrefixOf (c :: rest) || containsSub needle rest

/-- Result of processing one line: updated record, console output, and
whether a change signal is pushed to the statsChanged channel. -/
structure LineOutcome where
  stats : InstanceStats
  console : List ConsoleMsg
  signal : Bool
deriving DecidableEq, Repr

/-- parseInstanceOutput (multi.go): the liveness marker sets IsLive and is
always echoed as a banner; a stats line is parsed and echoed only at
verbosity at least 1, and a change signal is sent exactly when a field
changed; all other lines are echoed only at verbosity at least 1. -/
def parseInstanceOutput (idx : Nat) (verbosity : Int) (stats : InstanceStats)
    (line : List Char) : LineOutcome :=
  if containsSub okMarker line then
    ⟨{ stats with IsLive := true }, [ConsoleMsg.banner idx], false⟩
  else if containsSub statsMarker line then
    let p := parseStatsLine stats line
    ⟨p.1, if 1 ≤ verbosity then [ConsoleMsg.echo idx line] else [], p.2⟩
  else
    ⟨stats, if 1 ≤ verbosity then [ConsoleMsg.echo idx line] else [], false⟩

theorem updConnecting_eq (line : List Char) (p : InstanceStats × Bool) :
    updConnecting line p =
      ({ p.1 with Connecting := (connectingValOf line).getD p.1.Connecting },
        p.2 || ((connectingValOf line).getD p.1.Connecting != p.1.Connecting)) := by
  obtain ⟨s, b⟩ := p
  cases h : connectingValOf line with
  | none => simp [updConnecting, h]
  | some v =>
    simp only [updConnecting, h, Option.getD_some]
    split <;> rename_i hne
    · simp [bne_iff_ne, Ne.symm hne]
    · simp at hne
      subst hne
      simp

theorem updConnected_eq (line : List Char) (p : InstanceStats × Bool) :
    updConnected line p =
      ({ p.1 with Connected := (connectedValOf line).getD p.1.Connected },
        p.2 || ((connectedValOf line).getD p.1.Connected != p.1.Connected)) := by
  obtain ⟨s, b⟩ := p
  cases h : connectedValOf line with
  | none => simp [updConnected, h]
  | some v =>
    simp only [updConnected, h, Option.getD_some]
    split <;> rename_i hne
    · simp [bne_iff_ne, Ne.symm hne]
    · simp at hne
      subst hne
      simp

theorem updUp_eq (line : List Char) (p : InstanceStats × Bool) :
    updUp line p =
      ({ p.1 with BytesUp := (upValOf line).getD p.1.BytesUp },
        p.2 || ((upValOf line).getD p.1.BytesUp != p.1.BytesUp)) := by
  obtain ⟨s, b⟩ := p
  cases h : upValOf line with
  | none => simp [updUp, h]
  | some v =>
    simp only [updUp, h, Option.getD_some]
    split <;> rename_i hne
    · simp [bne_iff_ne, Ne.symm hne]
    · simp at hne
      subst hne
      simp

theorem updDown_eq (line : List Char) (p : InstanceStats × Bool) :
    updDown line p =
      ({ p.1 with BytesDown := (downValOf line).getD p.1.BytesDown },
        p.2 || ((downValOf line).getD p.1.BytesDown != p.1.BytesDown)) := by
  obtain ⟨s, b⟩ := p
  cases h : downValOf line with
  | none => simp [updDown, h]
  | some v =>
    simp only [updDown, h, Option.getD_some]
    split <;> rename_i hne
    · simp [bne_iff_ne, Ne.symm hne]
    · simp at hne
      subst hne
      simp

/-- Full characterization of parseStatsLine: each field becomes the parsed
value when its pattern matches and keeps the prior value otherwise, and
the changed flag is the disjunction of the four per-field differences. -/
theorem parseStatsLine_eq (s : InstanceStats) (line : List Char) :
    parseStatsLine s line =
      ({ s with
          Connecting := (connectingValOf line).getD s.Connecting,
          Connected := (connectedValOf line).getD s.Connected,
          BytesUp := (upValOf line).getD s.BytesUp,
          BytesDown := (downValOf line).getD s.BytesDown },
        (((connectingValOf line).getD s.Connecting != s.Connecting) ||
         ((connectedValOf line).getD s.Connected != s.Connected) ||
         ((upValOf line).getD s.BytesUp != s.BytesUp) ||
         ((downValOf line).getD s.BytesDown != s.BytesDown))) := by
  obtain ⟨id, live, c0, d0, u0, w0, rc0, lz0⟩ := s
  rw [parseStatsLine, updConnecting_eq, updConnected_eq, updUp_eq, updDown_eq]
  simp [Bool.or_assoc]

/-- A four-field update of an InstanceStats equals the original record
exactly when every updated value equals the prior one. -/
theorem instanceStats_upd_eq_self (s : InstanceStats) (c d u w : Int) :
    ({ s with Connecting := c, Connected := d, BytesUp := u, BytesDown := w } = s) ↔
      (c = s.Connecting ∧ d = s.Connected ∧ u = s.BytesUp ∧ w = s.BytesDown) := by
  obtain ⟨id, live, c0, d0, u0, w0, rc0, lz0⟩ := s
  simp [InstanceStats.mk.injEq]

/-- The spec's example stats line. -/
def exampleStatsLine : List Char :=
  "[STATS] Connecting: 3 Connected: 5 Up: 1.5 MB Down: 0 B".toList

/-- The record the example line produces from a fresh instance. -/
def exampleStats : InstanceStats :=
  ⟨"instance-0", false, 3, 5, 1572864, 0, 0, none⟩

set_option maxRecDepth 10000 in
/-- C2: for every prior record and every line, parseStatsLine sets each of
the four fields whose pattern matches to the parsed value, leaves absent
fields at their prior value, touches nothing else, and returns true
exactly when at least one field's new value differs from its prior value;
re-parsing a line just parsed reports unchanged; and on the spec's example
line a fresh instance yields connecting=3, connected=5, bytesUp=1572864,
bytesDown=0 with changed on the first parse and unchanged on the second. -/
theorem parseStatsLine_spec (s : InstanceStats) (line : List Char) :
    ((parseStatsLine s line).1.Connecting = (connectingValOf line).getD s.Connecting ∧
      (parseStatsLine s line).1.Connected = (connectedValOf line).getD s.Connected ∧
      (parseStatsLine s line).1.BytesUp = (upValOf line).getD s.BytesUp ∧
      (parseStatsLine s line).1.BytesDown = (downValOf line).getD s.BytesDown) ∧
    ((parseStatsLine s line).1.ID = s.ID ∧
      (parseStatsLine s line).1.IsLive = s.IsLive ∧
      (parseStatsLine s line).1.RestartCount = s.RestartCount ∧
      (parseStatsLine s line).1.LastZeroTime = s.LastZeroTime) ∧
    ((parseStatsLine s line).2 = true ↔ (parseStatsLine s line).1 ≠ s) ∧
    (parseStatsLine (parseStatsLine s line).1 line = ((parseStatsLine s line).1, false)) ∧
    (parseStatsLine (newInstanceStats "instance-0") exampleStatsLine = (exampleStats, true) ∧
      parseStatsLine exampleStats exampleStatsLine = (exampleStats, false)) := by
  refine ⟨?_, ?_, ?_, ?_, by constructor <;> decide⟩
  · rw [parseStatsLine_eq]
    exact ⟨rfl, rfl, rfl, rfl⟩
  · rw [parseStatsLine_eq]
    exact ⟨rfl, rfl, rfl, rfl⟩
  · rw [parseStatsLine_eq]
    simp only [ne_eq, instanceStats_upd_eq_self, Bool.or_eq_true, bne_iff_ne]
    tauto
  · rw [parseStatsLine_eq, parseStatsLine_eq]
    cases hc : connectingValOf line <;> cases hd : connectedValOf line <;>
      cases hu : upValOf line <;> cases hw : downValOf line <;>
      simp [hc, hd, hu, hw]

/-- C5 counterexample: processing the liveness marker twice leaves the
record unchanged, but the second processing emits the Connected banner
again — parseInstanceOutput prints it unconditionally — so the claim that
the banner is not re-emitted is false on the code. -/
theorem liveness_banner_reemitted_counterexample :
    (parseInstanceOutput 0 0 (newInstanceStats "instance-0") okMarker).console =
        [ConsoleMsg.banner 0] ∧
    (parseInstanceOutput 0 0
        (parseInstanceOutput 0 0 (newInstanceStats "instance-0") okMarker).stats
        okMarker).stats =
      (parseInstanceOutput 0 0 (newInstanceStats "instance-0") okMarker).stats ∧
    (parseInstanceOutput 0 0
        (parseInstanceOutput 0 0 (newInstanceStats "instance-0") okMarker).stats
        okMarker).console = [ConsoleMsg.banner 0] := by
  refine ⟨by decide, by decide, by decide⟩

/-- C5 (amended): a line containing the liveness marker sets IsLive true
idempotently — processing it a second time leaves the record unchanged —
and the Connected banner is surfaced to the console at every verbosity,
on the repeat as well (the banner is re-emitted on each occurrence); no
change signal is pushed for a liveness line. -/
theorem parseInstanceOutput_liveness_spec (idx : Nat) (verbosity : Int)
    (s : InstanceStats) (line : List Char) (h : containsSub okMarker line = true) :
    parseInstanceOutput idx verbosity s line =
      ⟨{ s with IsLive := true }, [ConsoleMsg.banner idx], false⟩ ∧
    parseInstanceOutput idx verbosity { s with IsLive := true } line =
      ⟨{ s with IsLive := true }, [ConsoleMsg.banner idx], false⟩ := by
  constructor <;> simp [parseInstanceOutput, h]

/-- Witness for C5's amended theorem at the marker line itself. -/
theorem parseInstanceOutput_liveness_spec_witness :
    parseInstanceOutput 3 0 (newInstanceStats "instance-3") okMarker =
      ⟨{ newInstanceStats "instance-3" with IsLive := true }, [ConsoleMsg.banner 3], false⟩ :=
  (parseInstanceOutput_liveness_spec 3 0 (newInstanceStats "instance-3") okMarker
    (by decide)).1

/-! ## Aggregation and persistence engine (printAndWriteStats and
aggregateAndPrintStats in multi.go).

The wall-clock timestamp and the human formatting of bytes and uptime on
the console line are presentation only and are omitted; the console line
is modelled by the aggregate numbers it carries, the JSON file by its
numeric fields and per-instance list. -/

/-- InstanceJSON represents per-instance stats in JSON (multi.go). -/
structure InstanceJSON where
  id : String
  isLive : Bool
  connecting : Int
  connected : Int
  bytesUp : Int
  bytesDown : Int
  restartCount : Int
deriving DecidableEq, Repr

/-- The InstanceJSON entry built from an InstanceStats record. -/
def toInstanceJSON (s : InstanceStats) : InstanceJSON :=
  ⟨s.ID, s.IsLive, s.Connecting, s.Connected, s.BytesUp, s.BytesDown, s.RestartCount⟩

/-- The running totals accumulated by the printAndWriteStats loop. -/
structure AggregateTotals where
  liveCount : Int
  totalConnecting : Int
  totalConnected : Int
  totalUp : Int
  totalDown : Int
  totalRestarts : Int
deriving DecidableEq, Repr

/-- AggregateStatsJSON (multi.go), without the uptimeSeconds/timestamp
wall-clock presentation fields. -/
structure AggregateStatsJSON where
  liveInstances : Int
  totalInstances : Int
  connectingClients : Int
  connectedClients : Int
  totalBytesUp : Int
  totalBytesDown : Int
  totalRestarts : Int
  instances : List InstanceJSON
deriving DecidableEq, Repr

/-- The idle-timeout check performed per instance inside the
printAndWriteStats loop: a live instance at zero connections has the
first zero observation recorded; once the zero streak exceeds IdleTimeout
the process (when present) is killed and the timer resets; a positive
connection count resets the timer. Returns the updated record and whether
a kill was issued. -/
def idleCheck (now : Int) (s : InstanceStats) (procPresent : Bool) :
    InstanceStats × Bool :=
  if s.IsLive = true ∧ s.Connected = 0 then
    match s.LastZeroTime with
    | none => ({ s with LastZeroTime := some now }, false)
    | some t =>
      if IdleTimeoutNs < now - t then ({ s with LastZeroTime := none }, procPresent)
      else (s, false)
  else if 0 < s.Connected then ({ s with LastZeroTime := none }, false)
  else (s, false)

/-- The body of printAndWriteStats over the instanceStats/processes pair
list: accumulate the totals, build the per-instance JSON entries, and run
the idle check for each instance. Go accumulates left to right into
mutable sums; the combination here is by the same commutative additions. -/
def statsLoop (now : Int) :
    List (InstanceStats × Bool) →
      AggregateTotals × List InstanceJSON × List InstanceStats × List Bool
  | [] => (⟨0, 0, 0, 0, 0, 0⟩, [], [], [])
  | (s, proc) :: rest =>
    let r := statsLoop now rest
    let upd := idleCheck now s proc
    (⟨(if s.IsLive then 1 else 0) + r.1.liveCount,
      s.Connecting + r.1.totalConnecting,
      s.Connected + r.1.totalConnected,
      s.BytesUp + r.1.totalUp,
      s.BytesDown + r.1.totalDown,
      s.RestartCount + r.1.totalRestarts⟩,
     toInstanceJSON s :: r.2.1,
     upd.1 :: r.2.2.1,
     upd.2 :: r.2.2.2)

/-- Everything one printAndWriteStats call produces: the aggregate console
numbers, the optional file payload, the updated records, and the kill
decisions. -/
structure PublishResult where
  totals : AggregateTotals
  totalInstances : Int
  file : Option AggregateStatsJSON
  newStats : List InstanceStats
  kills : List Bool
deriving DecidableEq, Repr

/-- printAndWriteStats (multi.go): compute totals and per-instance data
under the lock, run the idle checks, then print the aggregate console
line and, when a stats file is configured, write the JSON payload. -/
def printAndWriteStats (now : Int) (statsFile : String)
    (ls : List (InstanceStats × Bool)) : PublishResult :=
  let r := statsLoop now ls
  { totals := r.1,
    totalInstances := (ls.length : Int),
    file :=
      if statsFile = "" then none
      else some ⟨r.1.liveCount, (ls.length : Int), r.1.totalConnecting,
        r.1.totalConnected, r.1.totalUp, r.1.totalDown, r.1.totalRestarts, r.2.1⟩,
    newStats := r.2.2.1,
    kills := r.2.2.2 }

/-- One occurrence observed by the aggregateAndPrintStats select loop: a
statsChanged signal or the context becoming done, together with the time
and the shared state held at that moment. -/
inductive AggEvent where
  | statsChanged (now : Int) (st : List (InstanceStats × Bool))
  | ctxDone (now : Int) (st : List (InstanceStats × Bool))
deriving DecidableEq, Repr

/-- Whether an event is a statsChanged signal. -/
def isChange : AggEvent → Bool
  | .statsChanged _ _ => true
  | .ctxDone _ _ => false

/-- The publish an event would produce. -/
def evPublish (statsFile : String) : AggEvent → PublishResult
  | .statsChanged now st => printAndWriteStats now statsFile st
  | .ctxDone now st => printAndWriteStats now statsFile st

/-- aggregateAndPrintStats (multi.go): publish on every change signal;
on context cancellation publish once more, as the final act, and return
(the statsDone channel is then closed). -/
def aggLoop (statsFile : String) : List AggEvent → List PublishResult
  | [] => []
  | AggEvent.statsChanged now st :: rest =>
    printAndWriteStats now statsFile st :: aggLoop statsFile rest
  | AggEvent.ctxDone now st :: _ => [printAndWriteStats now statsFile st]

/-! ## Instance supervisor loop (the per-index goroutine in Run,
multi.go).

Each runInstance call is one Attempt: the error it returned, whether
ctx.Err() was non-nil at the check after it returned, and whether a
worker process was actually started. exec.Cmd.Start refuses to launch a
process when the command's context is already done, so an attempt entered
after cancellation (for example right after the backoff sleep) starts no
process and observes the cancellation at the check. -/

/-- Outcome of one runInstance call. -/
structure Attempt where
  runErr : Option String
  cancelledAfter : Bool
  spawned : Bool
deriving DecidableEq, Repr

/-- Terminal state of one instance's supervisor loop. -/
inductive SupFinal where
  | exitedClean
  | givenUp
deriving DecidableEq, Repr

/-- Observable result of one instance's supervisor loop: how many
runInstance calls it made, how many actually started a worker process,
the successive values written to stats.RestartCount, the error pushed to
errChan (if any), and the terminal state. -/
structure SupResult where
  attempts : Nat
  procSpawns : Nat
  restartWrites : List Int
  errSent : Option String
  final : SupFinal
deriving DecidableEq, Repr

/-- Number of worker processes an attempt started. -/
def spawnCt (a : Attempt) : Nat := if a.spawned then 1 else 0

/-- The supervisor loop body (multi.go Run): run an instance; return
silently if the context was cancelled; otherwise count the restart, give
up at MaxRestarts (sending the last error), or back off and loop. none
means the outcome trace ended before the loop returned. -/
def superLoop (rc : Int) : List Attempt → Option SupResult
  | [] => none
  | a :: rest =>
    if a.cancelledAfter then some ⟨1, spawnCt a, [], none, SupFinal.exitedClean⟩
    else if MaxRestarts ≤ rc + 1 then
      some ⟨1, spawnCt a, [rc + 1], a.runErr, SupFinal.givenUp⟩
    else
      (superLoop (rc + 1) rest).map fun r =>
        ⟨r.attempts + 1, spawnCt a + r.procSpawns, (rc + 1) :: r.restartWrites,
          r.errSent, r.final⟩

/-- A worker crash with no cancellation pending. -/
def crashAttempt (e : String) : Attempt := ⟨some e, false, true⟩

/-- An attempt entered when the context is already done: Start launches
no process and the loop observes the cancellation. -/
def cancelledAttempt (err : Option String) : Attempt := ⟨err, true, false⟩

/-- The error an instance's whole supervisor run pushes to errChan. -/
def errOf (outs : List Attempt) : Option String :=
  match superLoop 0 outs with
  | some r => r.errSent
  | none => none

/-- The errChan contents at shutdown: the give-up errors in the order the
sends reached the buffered channel (order is an arbitrary interleaving of
the finished instances). -/
def runCollect (outsList : List (List Attempt)) (order : List Nat) : List String :=
  order.filterMap fun i => errOf (outsList.getD i [])

/-- The final select of Run (multi.go): after waiting for every
supervisor and for the aggregator's final write, receive the first error
from errChan if there is one, else return nil. -/
def runMultiErr (outsList : List (List Attempt)) (order : List Nat) : Option String :=
  match runCollect outsList order with
  | [] => none
  | e :: _ => some e

/-! ## The bandwidth-per-instance computation of the two revisions of Run
(cli/internal/conduit/multi.go). Both divide the configured bytes per
second by the instance count and then by a constant to obtain Mbps; the
older revision divides by the literal 125000, the newer by the
BytesPerSecondToMbps constant. -/

/-- Per-instance Mbps as computed by the older revision's Run. -/
def mbpsPerInstanceOld (bandwidthBytesPerSecond numInstances : ℚ) : ℚ :=
  if 0 < bandwidthBytesPerSecond then
    bandwidthBytesPerSecond / numInstances / 125000
  else -1

/-- Per-instance Mbps as computed by the newer revision's Run. -/
def mbpsPerInstanceNew (bandwidthBytesPerSecond numInstances : ℚ) : ℚ :=
  if 0 < bandwidthBytesPerSecond then
    bandwidthBytesPerSecond / numInstances / (BytesPerSecondToMbps : ℚ)
  else -1

/-- CalculateInstances determines how many instances to run based on max
clients (multi.go). Go integer division truncates toward zero. -/
def CalculateInstances (maxClients : Int) : Int :=
  let instances := Int.tdiv maxClients ClientsPerInstance
  let clamped := if instances < 1 then 1 else instances
  if MaxInstances < clamped then MaxInstances else clamped

/-- Truncation of a scaled decimal value agrees with Nat division. -/
theorem truncQ_valQ_mul (m f mult : Nat) :
    truncQ (valQ (m, f) * (mult : ℚ)) = ((m * mult) / 10 ^ f : Nat) := by
  have h1 : valQ (m, f) * (mult : ℚ) = ((m * mult : ℕ) : ℚ) / ((10 ^ f : ℕ) : ℚ) := by
    unfold valQ
    push_cast
    ring
  rw [h1, truncQ, if_neg (by push_neg; positivity), Rat.floor_natCast_div_natCast]
  push_cast
  rfl

/-- Truncation of a natural is itself. -/
theorem truncQ_natCast (n : Nat) :
    truncQ ((n : ℚ)) = (n : ℤ) := by
  rw [truncQ, if_neg (by push_neg; positivity), Int.floor_natCast]

/-- Truncation of a quotient of naturals is their Nat division. -/
theorem truncQ_natCast_div (a b : Nat) :
    truncQ ((a : ℚ) / (b : ℚ)) = ((a / b : ℕ) : ℤ) := by
  rw [truncQ, if_neg (by push_neg; positivity), Rat.floor_natCast_div_natCast]
  push_cast
  rfl

/-- The int64 conversion of a float64 scaled by a power-of-two multiplier
is the truncation of the exact scaled value whenever that value is within
the int64 range. -/
theorem f64MulToInt64_eq_trunc (n : Nat) (g : Int) (mult : Nat)
    (h : f64Q (n, g) * (mult : ℚ) < 2 ^ 63) :
    f64MulToInt64 (n, g) mult = truncQ (f64Q (n, g) * (mult : ℚ)) := by
  by_cases hg : 0 ≤ g
  · have hv : f64Q (n, g) * (mult : ℚ) = ((n * mult * 2 ^ g.toNat : ℕ) : ℚ) := by
      simp only [f64Q, hg, if_true]
      push_cast
      ring
    rw [hv] at h ⊢
    rw [truncQ_natCast]
    have hlt : (n * mult * 2 ^ g.toNat : ℕ) < 2 ^ 63 := by exact_mod_cast h
    simp only [f64MulToInt64, hg, if_true]
    rw [if_neg (by omega)]
  · have hv : f64Q (n, g) * (mult : ℚ) =
        ((n * mult : ℕ) : ℚ) / ((2 ^ (-g).toNat : ℕ) : ℚ) := by
      simp only [f64Q, hg, if_false]
      push_cast
      ring
    rw [hv] at h ⊢
    rw [truncQ_natCast_div]
    have hle : (((n * mult) / 2 ^ (-g).toNat : ℕ) : ℚ) ≤
        ((n * mult : ℕ) : ℚ) / ((2 ^ (-g).toNat : ℕ) : ℚ) := Nat.cast_div_le
    have hlt : ((n * mult) / 2 ^ (-g).toNat : ℕ) < 2 ^ 63 := by
      by_contra hcon
      push_neg at hcon
      have h2 : ((2 : ℚ) ^ 63) ≤ (((n * mult) / 2 ^ (-g).toNat : ℕ) : ℚ) := by
        exact_mod_cast hcon
      linarith
    simp only [f64MulToInt64, hg, if_false]
    rw [if_neg (by omega)]

/-- C4 (amended): parseByteValue returns 0 when the numeric token fails to
parse — bad syntax, or a value out of float64 range, on which ParseFloat
reports an error; otherwise, with v the token's value rounded to the
nearest float64, it returns v scaled by 1024^k truncated to an integer
when the unit is the k-th member of {B, KB, MB, GB, TB, PB, EB} and the
scaled value is within the int64 range, and the truncated v unscaled for
an unrecognized unit when v is within range (out-of-range conversions are
implementation-dependent in Go; the model fixes them at minInt64 as gc on
amd64 does). The function is a total Lean definition, so it never fails. -/
theorem parseByteValue_spec (numStr u : List Char) (nf : Nat × Int) (k : Nat) :
    (parseFloat64 numStr = none → parseByteValue numStr u = 0) ∧
    (parseFloat64 numStr = some nf → k < 7 → u = byteUnits.getD k [] →
      f64Q nf * 1024 ^ k < 2 ^ 63 →
      parseByteValue numStr u = truncQ (f64Q nf * 1024 ^ k)) ∧
    (parseFloat64 numStr = some nf → (∀ v ∈ byteUnits, u ≠ v) →
      f64Q nf < 2 ^ 63 →
      parseByteValue numStr u = truncQ (f64Q nf)) := by
  obtain ⟨n, g⟩ := nf
  have hcast : ∀ k2 : Nat, ((1024 : ℚ) ^ k2) = ((1024 ^ k2 : ℕ) : ℚ) := by
    intro k2
    push_cast
    rfl
  refine ⟨fun h => by simp [parseByteValue, h], fun h hk hu hrange => ?_,
    fun h hu hrange => ?_⟩
  · have hbm : byteMultiplier (byteUnits.getD k []) = some (1024 ^ k) := by
      interval_cases k <;> rfl
    rw [hu]
    simp only [parseByteValue, h, hbm]
    rw [hcast] at hrange ⊢
    exact f64MulToInt64_eq_trunc n g (1024 ^ k) hrange
  · have hB := hu ['B'] (by simp [byteUnits])
    have hKB := hu ['K', 'B'] (by simp [byteUnits])
    have hMB := hu ['M', 'B'] (by simp [byteUnits])
    have hGB := hu ['G', 'B'] (by simp [byteUnits])
    have hTB := hu ['T', 'B'] (by simp [byteUnits])
    have hPB := hu ['P', 'B'] (by simp [byteUnits])
    have hEB := hu ['E', 'B'] (by simp [byteUnits])
    have hnone : byteMultiplier u = none := by
      simp [byteMultiplier, hB, hKB, hMB, hGB, hTB, hPB, hEB]
    have hr1 : f64Q (n, g) * ((1 : ℕ) : ℚ) < 2 ^ 63 := by
      simpa using hrange
    have := f64MulToInt64_eq_trunc n g 1 hr1
    simp only [Nat.cast_one, mul_one] at this
    simp [parseByteValue, h, hnone, this]

set_option maxRecDepth 10000 in
/-- Witness for C4's amended theorem at the spec's own example: 1.5 MB
parses to 1572864 (1.5 is exactly representable, with grid pair
(6755399441055744, -52)). -/
theorem parseByteValue_spec_witness :
    parseByteValue ("1.5".toList) ("MB".toList) = 1572864 := by
  have hval : f64Q (6755399441055744, -52) * 1024 ^ 2 = (1572864 : ℚ) := by
    have h52 : ((-(-52 : ℤ)).toNat) = 52 := rfl
    simp only [f64Q, h52]
    norm_num
  have h := (parseByteValue_spec ("1.5".toList) ("MB".toList)
      (6755399441055744, -52) 2).2.1
    (by decide) (by decide) (by decide) (by rw [hval]; norm_num)
  rw [h, hval, show (1572864 : ℚ) = ((1572864 : ℕ) : ℚ) from by norm_num,
    truncQ_natCast]
  norm_num

set_option maxRecDepth 10000 in
/-- C4 counterexample: on the token 0.99999999999999999 with unit B the
program returns 1 — strconv.ParseFloat rounds the token to the nearest
float64, which is exactly 1.0 — while the claim's formula, truncation of
the exact token value times 1024^0, gives 0. -/
theorem parseByteValue_rounding_counterexample :
    parseByteValue ("0.99999999999999999".toList) ("B".toList) = 1 ∧
    parseFloatDec ("0.99999999999999999".toList) = some (99999999999999999, 17) ∧
    truncQ (valQ (99999999999999999, 17) * 1024 ^ 0) = 0 := by
  refine ⟨by decide, by decide, ?_⟩
  have h := truncQ_valQ_mul 99999999999999999 17 1
  simpa using h

/-- Characterization of the printAndWriteStats loop body: the totals are
the live count and the field sums over the records, the JSON entries are
the per-record projections, and the updated records and kill flags come
from the per-record idle check. -/
theorem statsLoop_spec (now : Int) (ls : List (InstanceStats × Bool)) :
    statsLoop now ls =
      (⟨(((ls.map Prod.fst).countP fun s => s.IsLive : Nat) : Int),
        ((ls.map Prod.fst).map InstanceStats.Connecting).sum,
        ((ls.map Prod.fst).map InstanceStats.Connected).sum,
        ((ls.map Prod.fst).map InstanceStats.BytesUp).sum,
        ((ls.map Prod.fst).map InstanceStats.BytesDown).sum,
        ((ls.map Prod.fst).map InstanceStats.RestartCount).sum⟩,
       (ls.map Prod.fst).map toInstanceJSON,
       ls.map (fun p => (idleCheck now p.1 p.2).1),
       ls.map (fun p => (idleCheck now p.1 p.2).2)) := by
  induction ls with
  | nil => rfl
  | cons hd tl ih =>
    obtain ⟨s, proc⟩ := hd
    cases h : s.IsLive
    · simp [statsLoop, ih, List.countP_cons, h]
    · simp [statsLoop, ih, List.countP_cons, h]
      omega

/-- C1: at every publish performed by printAndWriteStats, the aggregate
totals carried by the console line and, when a stats file is configured,
by the JSON payload are the exact sums over the current per-instance
records: live count is the number of records with IsLive, the
connecting/connected totals and byte totals and restart total are the
field sums, for any current state of the records (hence for any prior
sequence of per-instance updates). -/
theorem printAndWriteStats_totals (now : Int) (statsFile : String)
    (ls : List (InstanceStats × Bool)) :
    ((printAndWriteStats now statsFile ls).totals.liveCount =
        (((ls.map Prod.fst).countP fun s => s.IsLive : Nat) : Int) ∧
      (printAndWriteStats now statsFile ls).totals.totalConnecting =
        ((ls.map Prod.fst).map InstanceStats.Connecting).sum ∧
      (printAndWriteStats now statsFile ls).totals.totalConnected =
        ((ls.map Prod.fst).map InstanceStats.Connected).sum ∧
      (printAndWriteStats now statsFile ls).totals.totalUp =
        ((ls.map Prod.fst).map InstanceStats.BytesUp).sum ∧
      (printAndWriteStats now statsFile ls).totals.totalDown =
        ((ls.map Prod.fst).map InstanceStats.BytesDown).sum ∧
      (printAndWriteStats now statsFile ls).totals.totalRestarts =
        ((ls.map Prod.fst).map InstanceStats.RestartCount).sum ∧
      (printAndWriteStats now statsFile ls).totalInstances = (ls.length : Int)) ∧
    (statsFile = "" → (printAndWriteStats now statsFile ls).file = none) ∧
    (statsFile ≠ "" →
      (printAndWriteStats now statsFile ls).file =
        some ⟨(((ls.map Prod.fst).countP fun s => s.IsLive : Nat) : Int),
          (ls.length : Int),
          ((ls.map Prod.fst).map InstanceStats.Connecting).sum,
          ((ls.map Prod.fst).map InstanceStats.Connected).sum,
          ((ls.map Prod.fst).map InstanceStats.BytesUp).sum,
          ((ls.map Prod.fst).map InstanceStats.BytesDown).sum,
          ((ls.map Prod.fst).map InstanceStats.RestartCount).sum,
          (ls.map Prod.fst).map toInstanceJSON⟩) := by
  have h := statsLoop_spec now ls
  refine ⟨?_, fun he => ?_, fun hne => ?_⟩
  · simp [printAndWriteStats, h]
  · simp [printAndWriteStats, he]
  · simp [printAndWriteStats, h, hne]

/-- Witness for C1 on a concrete two-instance state with a configured
stats file. -/
theorem printAndWriteStats_totals_witness :
    (printAndWriteStats 0 "stats.json"
        [(⟨"instance-0", true, 1, 2, 3, 4, 5, none⟩, true),
         (⟨"instance-1", false, 10, 20, 30, 40, 50, none⟩, false)]).file =
      some ⟨1, 2, 11, 22, 33, 44, 55,
        [⟨"instance-0", true, 1, 2, 3, 4, 5⟩, ⟨"instance-1", false, 10, 20, 30, 40, 50⟩]⟩ := by
  have h := (printAndWriteStats_totals 0 "stats.json"
    [(⟨"instance-0", true, 1, 2, 3, 4, 5, none⟩, true),
     (⟨"instance-1", false, 10, 20, 30, 40, 50, none⟩, false)]).2.2 (by decide)
  exact h.trans (by decide)

/-- C3: the successive values a supervisor writes to RestartCount form a
strictly increasing chain starting above the initial counter; an instance
whose worker crashes five times consecutively with no cancellation makes
exactly five runInstance calls and five process spawns, ends givenUp with
its final error pushed to errChan, and is never spawned a sixth time (the
rest of its outcome trace is ignored); and each supervisor's result is a
function of its own outcome trace alone, so the other instances are
unaffected. -/
theorem supervisor_gives_up_at_max_restarts
    (e : String) (rest : List Attempt) (outs : Nat → List Attempt) (i : Nat)
    (h : outs i = List.replicate 5 (crashAttempt e) ++ rest) :
    superLoop 0 (outs i) =
      some ⟨5, 5, [1, 2, 3, 4, 5], some e, SupFinal.givenUp⟩ ∧
    (∀ (rc : Int) (l : List Attempt) (r : SupResult), superLoop rc l = some r →
      List.Chain (fun a b => a < b) rc r.restartWrites) ∧
    (∀ outs2 : Nat → List Attempt, (∀ j, j ≠ i → outs2 j = outs j) →
      ∀ j, j ≠ i → superLoop 0 (outs2 j) = superLoop 0 (outs j)) := by
  refine ⟨?_, ?_, fun outs2 heq j hj => by rw [heq j hj]⟩
  · rw [h]
    norm_num [List.replicate, superLoop, crashAttempt, spawnCt, MaxRestarts]
  · intro rc l
    induction l generalizing rc with
    | nil => intro r hr; simp [superLoop] at hr
    | cons a tl ih =>
      intro r hr
      simp only [superLoop] at hr
      split at hr
      · cases hr
        exact List.Chain.nil
      · split at hr
        · cases hr
          exact List.Chain.cons (by omega) List.Chain.nil
        · cases hmap : superLoop (rc + 1) tl with
          | none => rw [hmap] at hr; simp at hr
          | some r0 =>
            rw [hmap] at hr
            simp only [Option.map_some', Option.some.injEq] at hr
            subst hr
            exact List.Chain.cons (by omega) (ih (rc + 1) r0 hmap)

/-- Witness for C3: five immediate crashes give exactly the terminal
result, with no sixth spawn. -/
theorem supervisor_gives_up_at_max_restarts_witness :
    superLoop 0 (List.replicate 5 (crashAttempt "exit status 1") ++ []) =
      some ⟨5, 5, [1, 2, 3, 4, 5], some "exit status 1", SupFinal.givenUp⟩ :=
  (supervisor_gives_up_at_max_restarts "exit status 1" []
    (fun _ => List.replicate 5 (crashAttempt "exit status 1") ++ []) 0 rfl).1

/-- C6: once the cancellation event is observed, the aggregator performs
exactly one final publish, computed from the per-instance state at that
moment, and terminates (events after it are ignored); the persisted file,
when configured, carries exactly the totals of that final in-memory
aggregate; and a supervisor whose next attempt begins after cancellation
(for example mid-backoff) stops permanently with no new worker process
started and no restart recorded. -/
theorem final_flush_on_cancellation
    (statsFile : String) (pre : List AggEvent) (t : Int)
    (stFin : List (InstanceStats × Bool)) (rest : List AggEvent)
    (hpre : ∀ ev ∈ pre, isChange ev = true) :
    aggLoop statsFile (pre ++ AggEvent.ctxDone t stFin :: rest) =
      pre.map (evPublish statsFile) ++ [printAndWriteStats t statsFile stFin] ∧
    (∀ j, (printAndWriteStats t statsFile stFin).file = some j →
      j.liveInstances = (printAndWriteStats t statsFile stFin).totals.liveCount ∧
      j.connectingClients = (printAndWriteStats t statsFile stFin).totals.totalConnecting ∧
      j.connectedClients = (printAndWriteStats t statsFile stFin).totals.totalConnected ∧
      j.totalBytesUp = (printAndWriteStats t statsFile stFin).totals.totalUp ∧
      j.totalBytesDown = (printAndWriteStats t statsFile stFin).totals.totalDown ∧
      j.totalRestarts = (printAndWriteStats t statsFile stFin).totals.totalRestarts) ∧
    (∀ (rc : Int) (err : Option String) (rest2 : List Attempt),
      superLoop rc (cancelledAttempt err :: rest2) =
        some ⟨1, 0, [], none, SupFinal.exitedClean⟩) := by
  refine ⟨?_, fun j hj => ?_, fun rc err rest2 => ?_⟩
  · induction pre with
    | nil => rfl
    | cons ev tl ih =>
      cases ev with
      | statsChanged t0 st0 =>
        simp only [List.cons_append, aggLoop, List.map_cons, evPublish, List.append_eq]
        rw [ih fun x hx => hpre x (List.mem_cons_of_mem _ hx)]
      | ctxDone t0 st0 => simpa [isChange] using hpre _ (List.mem_cons_self _ _)
  · by_cases hf : statsFile = ""
    · simp [printAndWriteStats, hf] at hj
    · simp only [printAndWriteStats, if_neg hf, Option.some.injEq] at hj
      subst hj
      exact ⟨rfl, rfl, rfl, rfl, rfl, rfl⟩
  · simp [superLoop, cancelledAttempt, spawnCt]

/-- Witness for C6 on a concrete trace: one change publish, then the
cancellation publish, with a trailing ignored event. -/
theorem final_flush_on_cancellation_witness :
    aggLoop "stats.json"
        ([AggEvent.statsChanged 0 []] ++
          AggEvent.ctxDone 1 [(newInstanceStats "instance-0", false)] ::
            [AggEvent.statsChanged 2 []]) =
      [AggEvent.statsChanged 0 []].map (evPublish "stats.json") ++
        [printAndWriteStats 1 "stats.json" [(newInstanceStats "instance-0", false)]] :=
  (final_flush_on_cancellation "stats.json" [AggEvent.statsChanged 0 []] 1
    [(newInstanceStats "instance-0", false)] [AggEvent.statsChanged 2 []]
    (by decide)).1

/-- C7: the per-publish idle check records the first zero observation for
a live instance with zero connected clients, kills the worker (when its
process handle is present) and resets the timer once the zero streak
exceeds the one-hour threshold, resets the timer as soon as the instance
is observed with positive connections, and runs for every instance on
every publish; a kill surfaces as a crash to the supervisor loop, whose
next restart write increments the counter even though no real crash
occurred. -/
theorem idle_timeout_restart_policy
    (now t rc : Int) (s : InstanceStats) (proc : Bool) (e : String)
    (rest : List Attempt) (statsFile : String) (ls : List (InstanceStats × Bool)) :
    (s.IsLive = true → s.Connected = 0 → s.LastZeroTime = none →
      idleCheck now s proc = ({ s with LastZeroTime := some now }, false)) ∧
    (s.IsLive = true → s.Connected = 0 → s.LastZeroTime = some t →
      IdleTimeoutNs < now - t →
      idleCheck now s proc = ({ s with LastZeroTime := none }, proc)) ∧
    (s.IsLive = true → s.Connected = 0 → s.LastZeroTime = some t →
      ¬ IdleTimeoutNs < now - t → idleCheck now s proc = (s, false)) ∧
    (0 < s.Connected → idleCheck now s proc = ({ s with LastZeroTime := none }, false)) ∧
    ((printAndWriteStats now statsFile ls).newStats =
        ls.map (fun p => (idleCheck now p.1 p.2).1) ∧
      (printAndWriteStats now statsFile ls).kills =
        ls.map (fun p => (idleCheck now p.1 p.2).2)) ∧
    (∀ r : SupResult, superLoop rc (crashAttempt e :: rest) = some r →
      r.restartWrites.head? = some (rc + 1)) := by
  refine ⟨fun h1 h2 h3 => ?_, fun h1 h2 h3 h4 => ?_, fun h1 h2 h3 h4 => ?_,
    fun h1 => ?_, ?_, fun r hr => ?_⟩
  · rw [idleCheck, if_pos ⟨h1, h2⟩, h3]
  · rw [idleCheck, if_pos ⟨h1, h2⟩, h3]
    simp [h4]
  · rw [idleCheck, if_pos ⟨h1, h2⟩, h3]
    simp [h4]
  · rw [idleCheck, if_neg (fun hc => by omega), if_pos h1]
  · constructor <;> simp [printAndWriteStats, statsLoop_spec]
  · simp only [superLoop, crashAttempt] at hr
    simp only [Bool.false_eq_true, if_false] at hr
    split at hr
    · cases hr
      rfl
    · cases hmap : superLoop (rc + 1) rest with
      | none => rw [hmap] at hr; simp at hr
      | some r0 =>
        rw [hmap] at hr
        simp only [Option.map_some', Option.some.injEq] at hr
        subst hr
        rfl

/-- Witness for C7 at a concrete over-threshold idle instance. -/
theorem idle_timeout_restart_policy_witness :
    idleCheck (IdleTimeoutNs + 1) ⟨"instance-0", true, 0, 0, 0, 0, 0, some 0⟩ true =
      ({ (⟨"instance-0", true, 0, 0, 0, 0, 0, some 0⟩ : InstanceStats) with
          LastZeroTime := none }, true) :=
  (idle_timeout_restart_policy (IdleTimeoutNs + 1) 0 0
      ⟨"instance-0", true, 0, 0, 0, 0, 0, some 0⟩ true "e" [] "" []).2.1
    rfl rfl rfl (by norm_num [IdleTimeoutNs])

/-- C8: Run returns the first error received from errChan — the first
give-up error in channel order — or none when every instance's supervisor
pushed no error (all exited cleanly); and replacing one instance's entire
outcome trace (for example by a terminal failure) leaves every other
instance's supervisor result unchanged. -/
theorem run_returns_first_terminal_error
    (outsList : List (List Attempt)) (order : List Nat) (i : Nat) :
    ((∀ j ∈ order, errOf (outsList.getD j []) = none) →
      runMultiErr outsList order = none) ∧
    (∀ (e : String) (rest2 : List Nat), order = i :: rest2 →
      errOf (outsList.getD i []) = some e →
      runMultiErr outsList order = some e) ∧
    (∀ (alt : List Attempt) (j : Nat), j ≠ i →
      errOf ((outsList.set i alt).getD j []) = errOf (outsList.getD j [])) := by
  refine ⟨fun h => ?_, fun e rest2 ho he => ?_, fun alt j hj => ?_⟩
  · unfold runMultiErr
    rw [show runCollect outsList order = [] from List.filterMap_eq_nil_iff.mpr h]
  · subst ho
    unfold runMultiErr runCollect
    rw [List.getD_eq_getElem?_getD] at he
    simp [List.filterMap_cons, he]
  · rw [List.getD_eq_getElem?_getD, List.getElem?_set_ne (Ne.symm hj),
      ← List.getD_eq_getElem?_getD]

/-- Witness for C8: one crashed-out instance and one clean instance, with
the crashed instance's error first in channel order. -/
theorem run_returns_first_terminal_error_witness :
    runMultiErr
        [List.replicate 5 (crashAttempt "exit status 1"), [cancelledAttempt none]]
        [0, 1] = some "exit status 1" :=
  (run_returns_first_terminal_error
      [List.replicate 5 (crashAttempt "exit status 1"), [cancelledAttempt none]]
      [0, 1] 0).2.1 "exit status 1" [1] rfl (by decide)

/-- C9 counterexample: the claim that the two revisions compute different
per-instance Mbps values for some input is false — Go constant arithmetic
makes BytesPerSecondToMbps equal to the older revision's literal 125000,
so the two computations agree everywhere. -/
theorem bandwidth_divisors_differ_counterexample :
    ¬ ∃ bw n : ℚ, mbpsPerInstanceOld bw n ≠ mbpsPerInstanceNew bw n := by
  rintro ⟨bw, n, hne⟩
  apply hne
  have h125 : BytesPerSecondToMbps = (125000 : ℤ) := by decide
  rw [mbpsPerInstanceOld, mbpsPerInstanceNew, h125]
  norm_num

/-- C9 (amended): the two revisions' divisors are equal — 1000*1000/8
evaluates to 125000 under Go integer constant arithmetic — so for every
configured bandwidth and instance count the per-instance Mbps computed by
the older revision's Run equals the newer revision's. -/
theorem bandwidth_divisors_agree (bw n : ℚ) :
    mbpsPerInstanceOld bw n = mbpsPerInstanceNew bw n ∧
      BytesPerSecondToMbps = 125000 := by
  have h125 : BytesPerSecondToMbps = (125000 : ℤ) := by decide
  refine ⟨?_, h125⟩
  rw [mbpsPerInstanceOld, mbpsPerInstanceNew, h125]
  norm_num

/-- C10: for every integer maxClients, including zero and negative values,
CalculateInstances is the truncated quotient maxClients/50 clamped to the
inclusive range [1, 32]; in particular the result is always in [1, 32]. -/
theorem CalculateInstances_clamped (maxClients : Int) :
    CalculateInstances maxClients = max 1 (min 32 (Int.tdiv maxClients 50)) ∧
    1 ≤ CalculateInstances maxClients ∧ CalculateInstances maxClients ≤ 32 := by
  unfold CalculateInstances ClientsPerInstance MaxInstances
  generalize Int.tdiv maxClients 50 = q
  simp only []
  split_ifs <;> constructor <;> omega

end Conduit
